import Mathlib

/-!
Shallow embedding of the Open Download Manager (ODM) core: the segmented
download engine (`src/download/manager.rs`), the segment worker
(`src/download/segment.rs`), the single-stream fallback
(`src/download/single.rs`, `src/download/file.rs`), the progress tracker
(`src/download/progress.rs`), the metadata store (`src/state/metadata.rs`)
and the task controller (`src/core/manager.rs`).

Machine integers (`u64`) are modelled as `Nat`; where the Rust code can
underflow we use explicit wrapping arithmetic modulo `2^64`
(release-build `u64` semantics).  Fallible operations return
`Except String`.  I/O interactions (HTTP responses, disk reads/writes)
are passed in as explicit environment values, so every function here is
a pure, executable translation of the corresponding Rust code.
-/

namespace ODM

/-- `2^64`, the modulus of Rust `u64` arithmetic. -/
def u64Mod : Nat := 18446744073709551616

/-- Wrapping `u64` subtraction `a - b` (release-build semantics): for
`a, b < 2^64` this is `(a - b) mod 2^64`. -/
def wsub64 (a b : Nat) : Nat := (a + (u64Mod - b % u64Mod)) % u64Mod

/-- `DownloadStatus` from `src/core/manager.rs` (lines 12-21). -/
inductive DownloadStatus where
  | Idle
  | Downloading
  | Paused
  | Completed
  | Canceled
  | Retrying
  | Failed (reason : String)
deriving DecidableEq, Repr

/-- `SegmentMetadata` from `src/state/metadata.rs` (lines 5-12). -/
structure SegmentMetadata where
  segment_id : Nat
  start : Nat
  stop : Nat        -- the Rust field `end` (a Lean keyword)
  downloaded : Nat
  part_path : String
deriving DecidableEq, Repr

/-- `DownloadMetadata` from `src/state/metadata.rs` (lines 14-22). -/
structure DownloadMetadata where
  url : String
  output_path : String
  total_size : Nat
  etag : Option String
  last_modified : Option String
  segments : List SegmentMetadata
deriving DecidableEq, Repr

/-- Start offset of segment `i` in the fresh-download plan:
`let start = i as u64 * chunk_size` with `chunk_size = total_size / num_threads`
(`src/download/manager.rs` lines 55-59). -/
def segStart (total_size num_threads i : Nat) : Nat :=
  i * (total_size / num_threads)

/-- End offset of segment `i` in the fresh-download plan
(`src/download/manager.rs` lines 60-64): `total_size - 1` for the last
segment, otherwise `(i + 1) * chunk_size - 1`, with `u64` wrapping
subtraction. -/
def segEnd (total_size num_threads i : Nat) : Nat :=
  if i = num_threads - 1 then wsub64 total_size 1
  else wsub64 ((i + 1) * (total_size / num_threads)) 1

/-- The fresh-download segment plan built by `download_file_segmented`
(`src/download/manager.rs` lines 55-73). -/
def planSegments (total_size num_threads : Nat) (output_path : String) :
    List SegmentMetadata :=
  (List.range num_threads).map (fun i =>
    { segment_id := i
      start := segStart total_size num_threads i
      stop := segEnd total_size num_threads i
      downloaded := 0
      part_path := output_path ++ ".part" ++ toString i })

/-- The `u64` underflow condition of the end-offset expression
`(i + 1) * chunk_size - 1` evaluated for segment `i`
(`src/download/manager.rs` line 63): the subtraction underflows exactly
when the minuend is `0`. -/
def endExprUnderflows (total_size num_threads i : Nat) : Prop :=
  (i + 1) * (total_size / num_threads) < 1

instance (T N i : Nat) : Decidable (endExprUnderflows T N i) := by
  unfold endExprUnderflows; infer_instance

/-- `SegmentedProgressTracker` from `src/download/progress.rs`
(lines 27-32).  The Rust `HashMap<usize, (u64, u64)>` (`segment_id ↦
(downloaded, total)`) is modelled as an association list with unique
keys. -/
structure SegmentedProgressTracker where
  segments : List (Nat × Nat × Nat)
  total_downloaded : Nat
  total_size : Nat
deriving DecidableEq, Repr

namespace SegmentedProgressTracker

/-- `SegmentedProgressTracker::new` (`src/download/progress.rs` lines
34-44): inserts `(i, (0, segment_size))` for `i ∈ [0, num_segments)`. -/
def new (num_segments segment_size total_size : Nat) :
    SegmentedProgressTracker :=
  { segments := (List.range num_segments).map (fun i => (i, 0, segment_size))
    total_downloaded := 0
    total_size := total_size }

/-- `SegmentedProgressTracker::update` (`src/download/progress.rs` lines
46-52): `get_mut(&segment_id)` bumps the `downloaded` of the entry when the
key is present, and `total_downloaded += bytes` happens
unconditionally. -/
def update (t : SegmentedProgressTracker) (segment_id bytes : Nat) :
    SegmentedProgressTracker :=
  { t with
    segments := t.segments.map (fun e =>
      if e.1 = segment_id then (e.1, e.2.1 + bytes, e.2.2) else e)
    total_downloaded := t.total_downloaded + bytes }

/-- `HashMap` lookup: `segments.get(&segment_id)`. -/
def lookup (t : SegmentedProgressTracker) (segment_id : Nat) :
    Option (Nat × Nat) :=
  (t.segments.find? (fun e => e.1 = segment_id)).map (fun e => e.2)

/-- Sum of the per-segment `downloaded` fields. -/
def sumDownloaded (t : SegmentedProgressTracker) : Nat :=
  (t.segments.map (fun e => e.2.1)).sum

end SegmentedProgressTracker

/-- Rust `str::parse::<u64>()`: an optional leading `+`, then a
non-empty string of decimal digits whose value fits in a `u64`
(working on the character list of the string). -/
def parseU64 (s : String) : Option Nat :=
  let cs := match s.data with
    | '+' :: rest => rest
    | cs => cs
  if cs = [] then none
  else if cs.all (fun c => c.isDigit) then
    let v := cs.foldl (fun acc c => acc * 10 + (c.toNat - 48)) 0
    if v < u64Mod then some v else none
  else none

/-- The headers of an HTTP response that the engine inspects
(`accept-ranges`, `content-length`, `etag`, `last-modified`), each as
the raw header value when present. -/
structure Headers where
  acceptRanges : Option String
  contentLength : Option String
  etag : Option String
  lastModified : Option String
deriving DecidableEq, Repr

/-- Outcome of the fresh-download HEAD probe in `download_file_segmented`
(`src/download/manager.rs` lines 36-53). -/
inductive ProbeOutcome where
  | fallback                          -- delegate to `single::download_file`
  | abort (e : String)                -- a `?` propagated an error
  | segmented (total_size : Nat) (etag lastModified : Option String)
deriving DecidableEq, Repr

/-- The branch structure of `download_file_segmented` after a successful
HEAD (`src/download/manager.rs` lines 39-53): missing `accept-ranges` ⇒
fallback; missing `content-length` ⇒ fallback; present but unparsable
`content-length` ⇒ the `?` on `parse::<u64>()` aborts with an error. -/
def probe (h : Headers) : ProbeOutcome :=
  match h.acceptRanges with
  | none => .fallback
  | some _ =>
    match h.contentLength with
    | none => .fallback
    | some s =>
      match parseU64 s with
      | none => .abort "invalid digit found in string"
      | some n => .segmented n h.etag h.lastModified

/-- Whether the engine writes the metadata file on the fresh path:
`metadata.save_to_file(&meta_path)?` (`src/download/manager.rs` line 84)
is reached only on the segmented branch; both fallback returns (lines
41 and 48) happen before it. -/
def metaWrittenAfterProbe : ProbeOutcome → Bool
  | .segmented _ _ _ => true
  | _ => false

/-- A blocking GET response as the single-stream fallback sees it:
whether `error_for_status` passes, the value of `content_length()`, and
the successful body reads (each at most one 8 KiB buffer); the stream
ends after the last chunk (`read` returns `0`). -/
structure GetResponse where
  ok2xx : Bool
  contentLength : Option Nat
  chunks : List (List Nat)
deriving DecidableEq, Repr

/-- `write_stream_to_file` (`src/download/file.rs` lines 5-22): creates
(truncates) the output file and appends each 8 KiB read until a read
returns `0` bytes; the resulting file contents are the concatenation of
the chunks. -/
def write_stream_to_file (chunks : List (List Nat)) : List Nat :=
  (chunks.takeWhile (fun c => c ≠ [])).flatten

/-- `single::download_file` (`src/download/single.rs` lines 6-23): one
GET (`client.get(url).send()?.error_for_status()?`), then
`content_length().ok_or(...)?`, then stream to `output_path`.  The
second component counts the GET requests issued — the code contains a
single unconditional `send`. -/
def single_download_file (r : GetResponse) : Except String (List Nat) × Nat :=
  (if r.ok2xx = false then .error "HTTP status error"
   else
     match r.contentLength with
     | none => .error "Couldn\x27t get content length"
     | some _ => .ok (write_stream_to_file r.chunks), 1)

/-- One iteration of the read loop of the segment worker
(`src/download/segment.rs` lines 94-109): the `pause_flag` value
observed at the top of the iteration, the outcome of
`response.read(&mut buffer)` (bytes read, at most 8192) and the outcome
of `file.write_all(&buffer[..n])`. -/
structure Step where
  pause : Bool
  read : Except String Nat
  write : Except String Unit
deriving Repr

/-- Result of the body closure of the worker (`src/download/segment.rs`
lines 86-112). -/
inductive LoopOutcome where
  | paused            -- `pause_flag` seen set: `return Ok(())`, incomplete
  | completed         -- `read` returned `0`: `break`, then `Ok(())`
  | failed (e : String)  -- a `?` on read or write
deriving DecidableEq, Repr

/-- The read loop of the worker (`src/download/segment.rs` lines 92-109).
The environment supplies one `Step` per iteration; exhausting the list
is the end of the body stream (a `0`-byte read). -/
def runLoop : List Step → LoopOutcome
  | [] => .completed
  | s :: rest =>
    if s.pause then .paused
    else
      match s.read with
      | .error e => .failed e
      | .ok n =>
        if n = 0 then .completed
        else
          match s.write with
          | .error e => .failed e
          | .ok _ => runLoop rest

/-- Bytes appended to the part file by the loop: writes happen only for
iterations that pass the pause check and read `n ≠ 0` bytes. -/
def runLoopBytes : List Step → Nat
  | [] => 0
  | s :: rest =>
    if s.pause then 0
    else
      match s.read with
      | .error _ => 0
      | .ok n =>
        if n = 0 then 0
        else
          match s.write with
          | .error _ => 0
          | .ok _ => n + runLoopBytes rest

/-- The environment of one retry attempt (`src/download/segment.rs`
lines 51-116): the `request.send()` outcome, then (when the response is
accepted) the `OpenOptions::open` outcome and the steps of the loop. -/
inductive AttemptInteraction where
  | httpRejected            -- non-2xx, non-206 status: `continue`
  | transportError          -- `send` returned `Err`: `continue`
  | openFailed (e : String) -- body closure fails opening the part file
  | body (steps : List Step)
deriving Repr

/-- Whether one attempt makes `result.is_ok()` true
(`src/download/segment.rs` line 114): a rejected response or transport
error skips the body (`continue`), an open failure or a loop `?` makes
the closure return `Err`, and both `paused` and `completed` make it
return `Ok`. -/
def attemptOk : AttemptInteraction → Bool
  | .httpRejected => false
  | .transportError => false
  | .openFailed _ => false
  | .body steps =>
    match runLoop steps with
    | .paused => true
    | .completed => true
    | .failed _ => false

/-- The error returned when the retry budget is spent
(`src/download/segment.rs` lines 119-123). -/
def segFailMsg (segment_id max_retries : Nat) : String :=
  s!"Segment {segment_id} failed after {max_retries} attempts"

/-- The retry loop `for attempt in 1..=max_retries`
(`src/download/segment.rs` lines 51-117): the environment supplies one
interaction per attempt (the length of the list is `max_retries`); the first
attempt with `result.is_ok()` returns `Ok`, and exhausting the budget
returns the `SegmentExhausted` error. -/
def downloadAttempts (segment_id max_retries : Nat) :
    List AttemptInteraction → Except String Unit
  | [] => .error (segFailMsg segment_id max_retries)
  | a :: rest =>
    if attemptOk a then .ok () else downloadAttempts segment_id max_retries rest

/-- `DownloadSegment::download` (`src/download/segment.rs` lines
41-124): `existing` is the current size of the part file
(`get_downloaded_size`); when `existing ≥ end - start + 1` the segment
is already complete, otherwise the retry loop runs. -/
def segment_download (meta : SegmentMetadata) (existing max_retries : Nat)
    (attempts : List AttemptInteraction) : Except String Unit :=
  if meta.stop - meta.start + 1 ≤ existing then .ok ()
  else downloadAttempts meta.segment_id max_retries attempts

/-- The post-join phase of the engine (`src/download/manager.rs` lines
139-162).  `segResults` are the worker results: the spawning closure
only logs an `Err` (`if let Err(e) = segment.download() { eprintln! }`,
lines 139-141) and drops it, so they do not influence the result.  If
`pause_flag` is set the engine saves metadata and returns `Ok`;
otherwise it merges the parts (second component `true` = merge
attempted) and returns the merge outcome. -/
def engineFinish (segResults : List (Except String Unit)) (pauseSet : Bool)
    (saveOnPause mergeResult : Except String Unit) :
    Except String Unit × Bool :=
  if pauseSet then (saveOnPause, false)
  else (mergeResult, true)

/-- The status written by the engine thread spawned in `add_download`
when `download_file_segmented` returns (`src/core/manager.rs` lines
127-128): `Completed` on `Ok`, `Failed(e)` on `Err`. -/
def statusOfResult : Except String Unit → DownloadStatus
  | .ok _ => .Completed
  | .error e => .Failed e

/-- The state of the metadata file at `meta_path`: absent, or present
with the outcome of reading-and-parsing it
(`DownloadMetadata::load_from_file`, `src/state/metadata.rs` lines
30-38, where `serde_json::from_str` on a malformed file yields the
`Err`). -/
inductive MetaState where
  | absent
  | present (parsed : Except String DownloadMetadata)
deriving Repr

/-- How `download_file_segmented` obtains its `DownloadMetadata`. -/
inductive AcquireResult where
  | fromMeta (m : DownloadMetadata)   -- resumed from the metadata file
  | fresh (m : DownloadMetadata)      -- planned from the HEAD probe
  | fellBack                          -- delegated to the fallback
deriving DecidableEq, Repr

/-- The fresh plan built and saved on the segmented branch
(`src/download/manager.rs` lines 52-84). -/
def buildMetadata (url output_path : String) (total_size : Nat)
    (etag lastModified : Option String) (num_threads : Nat) :
    DownloadMetadata :=
  { url := url
    output_path := output_path
    total_size := total_size
    etag := etag
    last_modified := lastModified
    segments := planSegments total_size num_threads output_path }

/-- The metadata-acquisition phase of `download_file_segmented`
(`src/download/manager.rs` lines 30-85): when the metadata file exists,
`load_from_file(&meta_path)?` adopts it — and the `?` propagates a parse
error, aborting the run; when absent, the HEAD probe decides between
fallback, abort, and a fresh plan. -/
def acquireMetadata (ms : MetaState) (h : Headers)
    (url output_path : String) (num_threads : Nat) :
    Except String AcquireResult :=
  match ms with
  | .present parsed => parsed.map .fromMeta
  | .absent =>
    match probe h with
    | .fallback => .ok .fellBack
    | .abort e => .error e
    | .segmented n etag lm =>
      .ok (.fresh (buildMetadata url output_path n etag lm num_threads))

/-! ### SHA-256 (FIPS 180-4), hex encoding and UTF-8

`hash_url` (`src/download/manager.rs` lines 178-183) computes
`hex::encode(Sha256::digest(url.as_bytes()))`.  The `sha2` and `hex`
crates are external collaborators; their functions are embedded below
from their published specifications (FIPS 180-4 for SHA-256, the
`0-9a-f` alphabet for `hex::encode`, RFC 3629 for the UTF-8 of `str::as_bytes`). -/

/-- `2^32`, the modulus of SHA-256 word arithmetic. -/
def u32Mod : Nat := 4294967296

/-- Reduce to a 32-bit word. -/
def m32 (x : Nat) : Nat := x % u32Mod

/-- 32-bit right rotation. -/
def rotr32 (n x : Nat) : Nat := m32 ((x >>> n) ||| (x <<< (32 - n)))

/-- 32-bit bitwise complement. -/
def not32 (x : Nat) : Nat := 4294967295 - x % u32Mod

/-- SHA-256 `Ch(x,y,z)`. -/
def shaCh (x y z : Nat) : Nat := (x &&& y) ^^^ (not32 x &&& z)

/-- SHA-256 `Maj(x,y,z)`. -/
def shaMaj (x y z : Nat) : Nat := (x &&& y) ^^^ (x &&& z) ^^^ (y &&& z)

/-- SHA-256 `Σ₀`. -/
def shaSigA0 (x : Nat) : Nat := rotr32 2 x ^^^ rotr32 13 x ^^^ rotr32 22 x

/-- SHA-256 `Σ₁`. -/
def shaSigA1 (x : Nat) : Nat := rotr32 6 x ^^^ rotr32 11 x ^^^ rotr32 25 x

/-- SHA-256 `σ₀`. -/
def shaSigB0 (x : Nat) : Nat := rotr32 7 x ^^^ rotr32 18 x ^^^ (x >>> 3)

/-- SHA-256 `σ₁`. -/
def shaSigB1 (x : Nat) : Nat := rotr32 17 x ^^^ rotr32 19 x ^^^ (x >>> 10)

/-- The SHA-256 round constants `K₀..K₆₃` (decimal). -/
def shaK : List Nat :=
  [1116352408, 1899447441, 3049323471, 3921009573,
   961987163, 1508970993, 2453635748, 2870763221,
   3624381080, 310598401, 607225278, 1426881987,
   1925078388, 2162078206, 2614888103, 3248222580,
   3835390401, 4022224774, 264347078, 604807628,
   770255983, 1249150122, 1555081692, 1996064986,
   2554220882, 2821834349, 2952996808, 3210313671,
   3336571891, 3584528711, 113926993, 338241895,
   666307205, 773529912, 1294757372, 1396182291,
   1695183700, 1986661051, 2177026350, 2456956037,
   2730485921, 2820302411, 3259730800, 3345764771,
   3516065817, 3600352804, 4094571909, 275423344,
   430227734, 506948616, 659060556, 883997877,
   958139571, 1322822218, 1537002063, 1747873779,
   1955562222, 2024104815, 2227730452, 2361852424,
   2428436474, 2756734187, 3204031479, 3329325298]

/-- The SHA-256 initial hash value `H⁽⁰⁾` (decimal). -/
def shaH0 : List Nat :=
  [1779033703, 3144134277, 1013904242, 2773480762,
   1359893119, 2600822924, 528734635, 1541459225]

/-- SHA-256 padding: append `0x80`, zeros to 56 mod 64, then the bit
length as 8 big-endian bytes. -/
def shaPad (msg : List Nat) : List Nat :=
  let zeros := (64 - (msg.length + 9) % 64) % 64
  let bits := (msg.length * 8) % u64Mod
  msg ++ 0x80 :: List.replicate zeros 0 ++
    ([56, 48, 40, 32, 24, 16, 8, 0].map (fun s => (bits >>> s) &&& 255))

/-- Big-endian 4-byte groups to 32-bit words. -/
def bytesToWords : List Nat → List Nat
  | a :: b :: c :: d :: rest =>
    ((a <<< 24) ||| (b <<< 16) ||| (c <<< 8) ||| d) :: bytesToWords rest
  | _ => []

/-- One new word of the message schedule, from the last 16 entries. -/
def nextW (ws : List Nat) : Nat :=
  let t := ws.length
  m32 (shaSigB1 (ws.getD (t - 2) 0) + ws.getD (t - 7) 0 +
       shaSigB0 (ws.getD (t - 15) 0) + ws.getD (t - 16) 0)

/-- Extend the 16-word schedule by `k` further words. -/
def extendW (ws : List Nat) : Nat → List Nat
  | 0 => ws
  | k + 1 => extendW (ws ++ [nextW ws]) k

/-- The eight SHA-256 working variables. -/
structure Sha8 where
  a : Nat
  b : Nat
  c : Nat
  d : Nat
  e : Nat
  f : Nat
  g : Nat
  h : Nat
deriving Repr

/-- One SHA-256 compression round. -/
def shaRound (s : Sha8) (k w : Nat) : Sha8 :=
  let t1 := m32 (s.h + shaSigA1 s.e + shaCh s.e s.f s.g + k + w)
  let t2 := m32 (shaSigA0 s.a + shaMaj s.a s.b s.c)
  ⟨m32 (t1 + t2), s.a, s.b, s.c, m32 (s.d + t1), s.e, s.f, s.g⟩

/-- Compress one 64-byte block into the running hash. -/
def compressBlock (H : List Nat) (block : List Nat) : List Nat :=
  let ws := extendW (bytesToWords block) 48
  let s0 : Sha8 :=
    ⟨H.getD 0 0, H.getD 1 0, H.getD 2 0, H.getD 3 0,
     H.getD 4 0, H.getD 5 0, H.getD 6 0, H.getD 7 0⟩
  let sf := (shaK.zip ws).foldl (fun s kw => shaRound s kw.1 kw.2) s0
  [m32 (H.getD 0 0 + sf.a), m32 (H.getD 1 0 + sf.b),
   m32 (H.getD 2 0 + sf.c), m32 (H.getD 3 0 + sf.d),
   m32 (H.getD 4 0 + sf.e), m32 (H.getD 5 0 + sf.f),
   m32 (H.getD 6 0 + sf.g), m32 (H.getD 7 0 + sf.h)]

/-- Fold the compression over all 64-byte blocks of a padded message. -/
def sha256Blocks (H : List Nat) (msg : List Nat) : List Nat :=
  if h : msg.length < 64 then H
  else sha256Blocks (compressBlock H (msg.take 64)) (msg.drop 64)
termination_by msg.length
decreasing_by simp only [List.length_drop]; omega

/-- A 32-bit word as 4 big-endian bytes. -/
def wordToBytes (w : Nat) : List Nat :=
  [(w >>> 24) &&& 255, (w >>> 16) &&& 255, (w >>> 8) &&& 255, w &&& 255]

/-- SHA-256 of a byte string, as 32 bytes. -/
def sha256 (msg : List Nat) : List Nat :=
  ((sha256Blocks shaH0 (shaPad msg)).map wordToBytes).flatten

/-- The alphabet of `hex::encode`. -/
def hexDigits : List Char := "0123456789abcdef".data

/-- A nibble as a lowercase hex character. -/
def hexChar (n : Nat) : Char := hexDigits.getD n '0'

/-- `hex::encode`: each byte as two lowercase hex characters,
high nibble first. -/
def hexEncode (bytes : List Nat) : String :=
  String.mk ((bytes.map (fun b => [hexChar ((b >>> 4) &&& 15), hexChar (b &&& 15)])).flatten)

/-- UTF-8 encoding of one scalar value (RFC 3629). -/
def utf8EncodeChar (c : Char) : List Nat :=
  let n := c.toNat
  if n < 0x80 then [n]
  else if n < 0x800 then
    [0xc0 ||| (n >>> 6), 0x80 ||| (n &&& 0x3f)]
  else if n < 0x10000 then
    [0xe0 ||| (n >>> 12), 0x80 ||| ((n >>> 6) &&& 0x3f), 0x80 ||| (n &&& 0x3f)]
  else
    [0xf0 ||| (n >>> 18), 0x80 ||| ((n >>> 12) &&& 0x3f),
     0x80 ||| ((n >>> 6) &&& 0x3f), 0x80 ||| (n &&& 0x3f)]

/-- `str::as_bytes`: the UTF-8 bytes of a string. -/
def utf8Encode (s : String) : List Nat :=
  (s.data.map utf8EncodeChar).flatten

/-- `hash_url` (`src/download/manager.rs` lines 178-183):
`hex::encode(Sha256::digest(url.as_bytes()))`. -/
def hash_url (url : String) : String :=
  hexEncode (sha256 (utf8Encode url))

/-! ### Task controller (`src/core/manager.rs`) -/

/-- `Config` from `src/config.rs` (lines 5-11). -/
structure Config where
  timeout_secs : Nat
  max_retries : Nat
  num_threads : Nat
  default_output_path : String
deriving DecidableEq, Repr

/-- The Rust `Debug` rendering used by `list_downloads`
(`format!("{:?}", *status)`, `src/core/manager.rs` line 76); reason
strings are taken verbatim (the `Debug` escaping of special characters
inside the reason is not modelled). -/
def DownloadStatus.debugStr : DownloadStatus → String
  | .Idle => "Idle"
  | .Downloading => "Downloading"
  | .Paused => "Paused"
  | .Completed => "Completed"
  | .Canceled => "Canceled"
  | .Retrying => "Retrying"
  | .Failed r => "Failed(\"" ++ r ++ "\")"

/-- `DownloadTask` from `src/core/manager.rs` (lines 46-55).  The
`JoinHandle`s are not modelled (joining is I/O); `pause_flag`, `status`
and `progress` are the values held in the shared cells. -/
structure DownloadTask where
  id : String
  url : String
  output_path : String
  meta_path : String
  pause_flag : Bool
  status : DownloadStatus
  progress : SegmentedProgressTracker
deriving DecidableEq, Repr

/-- `DownloadManager` (`src/core/manager.rs` lines 57-60): the task
table (`HashMap<String, DownloadTask>`, modelled as an association list
with unique keys) and the configuration. -/
structure DownloadManager where
  tasks : List (String × DownloadTask)
  config : Config
deriving DecidableEq, Repr

namespace DownloadManager

/-- `HashMap::get` on the task table. -/
def lookupTask (m : DownloadManager) (id : String) : Option DownloadTask :=
  (m.tasks.find? (fun e => e.1 = id)).map (fun e => e.2)

/-- `HashMap::insert` on the task table: replaces any record with the
same key. -/
def insertTask (m : DownloadManager) (id : String) (t : DownloadTask) :
    DownloadManager :=
  { m with tasks := (id, t) :: m.tasks.filter (fun e => e.1 ≠ id) }

/-- `DownloadManager::new` (`src/core/manager.rs` lines 63-68). -/
def new (config : Config) : DownloadManager :=
  { tasks := [], config := config }

/-- `DownloadManager::list_downloads` (`src/core/manager.rs` lines
70-79): `(id, url, format!("{:?}", status))` triples. -/
def list_downloads (m : DownloadManager) : List (String × String × String) :=
  m.tasks.map (fun e => (e.1, e.2.url, e.2.status.debugStr))

/-- `DownloadManager::add_download` (`src/core/manager.rs` lines
97-145): `id = hash_url(&url)`; a fresh unset `pause_flag`, a fresh
`Idle` status cell, a fresh tracker `new(num_threads, 0, 0)`; the
record is inserted keyed by `id` and `id` is returned.  (The spawned
later writes of the engine thread to the status cell are modelled by
`statusOfResult` / `engineFinish`.) -/
def add_download (m : DownloadManager) (url output_path : String) :
    String × DownloadManager :=
  let id := hash_url url
  let task : DownloadTask :=
    { id := id
      url := url
      output_path := output_path
      meta_path := "downloads/meta/" ++ id ++ ".meta.json"
      pause_flag := false
      status := .Idle
      progress := .new m.config.num_threads 0 0 }
  (id, insertTask m id task)

/-- `DownloadManager::cancel` (`src/core/manager.rs` lines 176-198):
for a known id, set the pause flag, join the workers, delete the
metadata and part files (file deletion is I/O, not modelled), set the
status to `Canceled`, and return `true`; `false` for an unknown id. -/
def cancel (m : DownloadManager) (id : String) : Bool × DownloadManager :=
  match lookupTask m id with
  | none => (false, m)
  | some t =>
    (true, insertTask m id { t with pause_flag := true, status := .Canceled })

/-- `DownloadManager::pause` (`src/core/manager.rs` lines 147-155). -/
def pause (m : DownloadManager) (id : String) : Bool × DownloadManager :=
  match lookupTask m id with
  | none => (false, m)
  | some t =>
    (true, insertTask m id { t with pause_flag := true, status := .Paused })

/-- Modelled from the spec: `DownloadManager::remove` is missing from
the sources — only the test suite calls it
(`tests/core_manager_tests.rs` lines 59-61).  Spec §4.F: "`remove(id) →
bool`: cancel if still running, then delete the record from the
table"; §8 S1: "`remove(I)` returns true; `list()` no longer contains
`I`".  A task still runs unless its status is terminal (`Completed`,
`Canceled` or `Failed`). -/
def remove (m : DownloadManager) (id : String) : Bool × DownloadManager :=
  match lookupTask m id with
  | none => (false, m)
  | some t =>
    let stillRunning :=
      match t.status with
      | .Completed => false
      | .Canceled => false
      | .Failed _ => false
      | _ => true
    let m1 := if stillRunning then (cancel m id).2 else m
    (true, { m1 with tasks := m1.tasks.filter (fun e => e.1 ≠ id) })

end DownloadManager

/-! ### Claims -/

/-- Claim C10: the segment-planning arithmetic is free of `u64`
underflow iff `total_size ≥ num_threads`; when `0 < total_size <
num_threads`, `chunk = total_size / num_threads` is `0` and the
end-offset computation `(i + 1) * chunk - 1` underflows for every
non-last segment. -/
theorem claim_C10 (T N : Nat) (hT : 0 < T) (hN : 1 ≤ N) :
    ((∃ i, i < N - 1 ∧ endExprUnderflows T N i) ↔ T < N) ∧
    (T < N → T / N = 0 ∧ ∀ i, i < N - 1 → endExprUnderflows T N i) := by
  constructor
  · constructor
    · rintro ⟨i, _, hu⟩
      unfold endExprUnderflows at hu
      by_contra hlt
      push_neg at hlt
      have h1 : 0 < T / N := Nat.div_pos hlt (by omega)
      have h2 : 0 < (i + 1) * (T / N) := Nat.mul_pos (by omega) h1
      omega
    · intro hTN
      have hchunk : T / N = 0 := Nat.div_eq_of_lt hTN
      refine ⟨0, by omega, ?_⟩
      unfold endExprUnderflows
      simp [hchunk]
  · intro hTN
    have hchunk : T / N = 0 := Nat.div_eq_of_lt hTN
    refine ⟨hchunk, fun i _ => ?_⟩
    unfold endExprUnderflows
    simp [hchunk]

/-- Witness for C10 at `total_size = 1`, `num_threads = 2`: the single
non-last segment underflows. -/
theorem claim_C10_witness :
    (0 < 1 ∧ 1 ≤ 2) ∧
    (((∃ i, i < 2 - 1 ∧ endExprUnderflows 1 2 i) ↔ 1 < 2) ∧
     (1 < 2 → 1 / 2 = 0 ∧ ∀ i, i < 2 - 1 → endExprUnderflows 1 2 i)) :=
  ⟨⟨by decide, by decide⟩, claim_C10 1 2 (by decide) (by decide)⟩

/-- Claim C6 (code bug): whenever the engine drains after a pause
(`pause_flag` set at the join, metadata save succeeding),
`download_file_segmented` returns `Ok` and the spawning closure of
`add_download` writes `Completed` into the status cell — overwriting
the `Paused` that `pause` stored there.  The claim (and the transition
table of the spec, and the assertion of the repository test that the
status still reads `Paused` after a pause) says this must not happen. -/
theorem claim_C6 (segResults : List (Except String Unit))
    (mergeResult : Except String Unit) :
    statusOfResult (engineFinish segResults true (.ok ()) mergeResult).1 =
      .Completed ∧
    DownloadStatus.Completed ≠ DownloadStatus.Paused :=
  ⟨rfl, by decide⟩

/-- Claim C3, counterexample: when the metadata file exists but fails
to parse, `download_file_segmented` does NOT treat the task as fresh —
the `?` on `load_from_file` aborts the run with the parse error, while
a genuinely fresh task (absent metadata, same server headers) would be
planned and overwritten. -/
theorem claim_C3_counterexample :
    acquireMetadata (.present (.error "expected value at line 1 column 1"))
        ⟨some "bytes", some "100", none, none⟩
        "https://example.com/f.bin" "f.bin" 4 =
      .error "expected value at line 1 column 1" ∧
    acquireMetadata .absent ⟨some "bytes", some "100", none, none⟩
        "https://example.com/f.bin" "f.bin" 4 =
      .ok (.fresh (buildMetadata "https://example.com/f.bin" "f.bin" 100
        none none 4)) ∧
    (Except.error "expected value at line 1 column 1" :
        Except String AcquireResult) ≠
      .ok (.fresh (buildMetadata "https://example.com/f.bin" "f.bin" 100
        none none 4)) :=
  ⟨rfl, rfl, by simp⟩

/-- Claim C3 as amended: when the metadata file exists but fails to
parse, the engine aborts the whole run with that parse error — the
task status becomes `Failed` — instead of treating the task as
fresh. -/
theorem claim_C3_amended (e : String) (h : Headers) (url out : String)
    (n : Nat) :
    acquireMetadata (.present (.error e)) h url out n = .error e ∧
    statusOfResult (.error e) = .Failed e :=
  ⟨rfl, rfl⟩

/-- Claim C2 (code bug): a worker that exhausts its retry budget —
here one attempt that writes 100 bytes and then hits a read error,
then one rejected response — does return the `SegmentExhausted` error,
but the spawning closure in `download_file_segmented` (lines 139-141)
only logs it and drops it: the engine still performs the merge of the
(incomplete) part files (second component `true`) and returns `Ok`, so
`add_download` sets the task status to `Completed`, not `Failed`. -/
theorem claim_C2 :
    segment_download ⟨0, 0, 9999, 0, "test_download.bin.part0"⟩ 0 2
        [.body [⟨false, Except.ok 100, Except.ok ()⟩,
          ⟨false, Except.error "connection reset by peer", Except.ok ()⟩],
         .httpRejected] =
      .error "Segment 0 failed after 2 attempts" ∧
    engineFinish [.error "Segment 0 failed after 2 attempts"] false
        (.ok ()) (.ok ()) = (.ok (), true) ∧
    statusOfResult
        (engineFinish [.error "Segment 0 failed after 2 attempts"] false
          (.ok ()) (.ok ())).1 = .Completed ∧
    DownloadStatus.Completed ≠ .Failed "Segment 0 failed after 2 attempts" :=
  ⟨rfl, rfl, rfl, by simp⟩

/-- Claim C7, counterexample: a HEAD response whose `Content-Length`
is present but not numeric "lacks a numeric Content-Length", yet the
engine does not delegate to the fallback — the `?` on
`parse::<u64>()` (`src/download/manager.rs` line 45) aborts the run
with a parse error instead. -/
theorem claim_C7_counterexample :
    parseU64 "abc" = none ∧
    probe ⟨some "bytes", some "abc", none, none⟩ =
      .abort "invalid digit found in string" ∧
    probe ⟨some "bytes", some "abc", none, none⟩ ≠ .fallback :=
  ⟨by decide, rfl, by decide⟩

/-- Claim C7 as amended: for every URL whose HEAD response lacks an
`Accept-Ranges` header or lacks a `Content-Length` header entirely,
the engine delegates to the single-stream fallback (a present but
non-numeric `Content-Length` instead aborts with a parse error); the
fallback issues exactly one GET, streams the body buffers directly
into `output_path`, and no metadata file is written on this path. -/
theorem claim_C7_amended (h : Headers) (r : GetResponse)
    (hh : h.acceptRanges = none ∨ h.contentLength = none) :
    probe h = .fallback ∧
    metaWrittenAfterProbe (probe h) = false ∧
    (single_download_file r).2 = 1 ∧
    (r.ok2xx = true → ∀ L, r.contentLength = some L →
      (single_download_file r).1 = .ok (write_stream_to_file r.chunks)) := by
  have hp : probe h = .fallback := by
    rcases hh with h1 | h1
    · simp [probe, h1]
    · rcases hAR : h.acceptRanges with _ | v <;> simp [probe, h1, hAR]
  refine ⟨hp, by rw [hp]; rfl, rfl, ?_⟩
  intro hok L hL
  simp [single_download_file, hok, hL]

/-- Witness for C7 at a HEAD response with no `Accept-Ranges` header
and a GET response with a 3-byte body. -/
theorem claim_C7_witness :
    ((⟨none, some "100", none, none⟩ : Headers).acceptRanges = none ∨
      (⟨none, some "100", none, none⟩ : Headers).contentLength = none) ∧
    (probe ⟨none, some "100", none, none⟩ = .fallback ∧
     metaWrittenAfterProbe (probe ⟨none, some "100", none, none⟩) = false ∧
     (single_download_file ⟨true, some 3, [[10, 20, 30]]⟩).2 = 1 ∧
     ((⟨true, some 3, [[10, 20, 30]]⟩ : GetResponse).ok2xx = true →
       ∀ L, (⟨true, some 3, [[10, 20, 30]]⟩ : GetResponse).contentLength =
          some L →
       (single_download_file ⟨true, some 3, [[10, 20, 30]]⟩).1 =
         .ok (write_stream_to_file
           (⟨true, some 3, [[10, 20, 30]]⟩ : GetResponse).chunks))) :=
  ⟨Or.inl rfl, claim_C7_amended ⟨none, some "100", none, none⟩
    ⟨true, some 3, [[10, 20, 30]]⟩ (Or.inl rfl)⟩

/-- Claim C5: a pause is never a worker error — in any attempt whose
read loop runs some successful iterations and then observes
`pause_flag` set, the loop stops (it writes nothing further, whatever
the remaining stream holds), the attempt counts as success, and
`download` returns `Ok` immediately with the segment left incomplete,
consuming none of the remaining retry budget. -/
theorem claim_C5 (pre rest : List Step) (s : Step)
    (attemptsRest : List AttemptInteraction) (meta : SegmentMetadata)
    (existing max_retries : Nat)
    (hpre : ∀ p ∈ pre, p.pause = false ∧ p.write = .ok () ∧
      ∃ n, p.read = .ok n ∧ n ≠ 0)
    (hs : s.pause = true)
    (hinc : existing < meta.stop - meta.start + 1) :
    runLoop (pre ++ s :: rest) = .paused ∧
    runLoopBytes (pre ++ s :: rest) = runLoopBytes pre ∧
    segment_download meta existing max_retries
      (.body (pre ++ s :: rest) :: attemptsRest) = .ok () := by
  have hloop : runLoop (pre ++ s :: rest) = .paused := by
    induction pre with
    | nil => simp [runLoop, hs]
    | cons p ps ih =>
      obtain ⟨hp, hw, n, hr, hn⟩ := hpre p (by simp)
      simpa [runLoop, hp, hr, hn, hw] using
        ih (fun q hq => hpre q (by simp [hq]))
  have hbytes : runLoopBytes (pre ++ s :: rest) = runLoopBytes pre := by
    clear hloop
    induction pre with
    | nil => simp [runLoopBytes, hs]
    | cons p ps ih =>
      obtain ⟨hp, hw, n, hr, hn⟩ := hpre p (by simp)
      simpa [runLoopBytes, hp, hr, hn, hw] using
        ih (fun q hq => hpre q (by simp [hq]))
  refine ⟨hloop, hbytes, ?_⟩
  simp only [segment_download, downloadAttempts, attemptOk, hloop]
  rw [if_neg (by omega)]
  simp

/-- Witness for C5: one successful 8 KiB read, then the pause flag is
observed; the attempt succeeds at once with 91 of 100 bytes missing. -/
theorem claim_C5_witness :
    (∀ p ∈ [(⟨false, Except.ok 8192, Except.ok ()⟩ : Step)],
      p.pause = false ∧ p.write = .ok () ∧ ∃ n, p.read = .ok n ∧ n ≠ 0) ∧
    (⟨true, Except.ok 0, Except.ok ()⟩ : Step).pause = true ∧
    (0 : Nat) <
      (⟨0, 0, 99, 0, "test_download.bin.part0"⟩ : SegmentMetadata).stop -
        (⟨0, 0, 99, 0, "test_download.bin.part0"⟩ : SegmentMetadata).start + 1 ∧
    (runLoop ([⟨false, Except.ok 8192, Except.ok ()⟩] ++
        (⟨true, Except.ok 0, Except.ok ()⟩ : Step) :: []) = .paused ∧
     runLoopBytes ([⟨false, Except.ok 8192, Except.ok ()⟩] ++
        (⟨true, Except.ok 0, Except.ok ()⟩ : Step) :: []) =
       runLoopBytes [⟨false, Except.ok 8192, Except.ok ()⟩] ∧
     segment_download ⟨0, 0, 99, 0, "test_download.bin.part0"⟩ 0 3
        (.body ([⟨false, Except.ok 8192, Except.ok ()⟩] ++
          (⟨true, Except.ok 0, Except.ok ()⟩ : Step) :: []) ::
          [.httpRejected, .httpRejected]) = .ok ()) :=
  ⟨by intro p hp; simp at hp; subst hp; exact ⟨rfl, rfl, 8192, rfl, by decide⟩,
   rfl, by decide,
   claim_C5 [⟨false, Except.ok 8192, Except.ok ()⟩] []
     ⟨true, Except.ok 0, Except.ok ()⟩ [.httpRejected, .httpRejected]
     ⟨0, 0, 99, 0, "test_download.bin.part0"⟩ 0 3
     (by intro p hp; simp at hp; subst hp;
         exact ⟨rfl, rfl, 8192, rfl, by decide⟩)
     rfl (by decide)⟩

/-- Helper: updating entries whose key is absent from a list leaves it
unchanged. -/
lemma map_update_of_not_mem (l : List (Nat × Nat × Nat)) (sid n : Nat)
    (h : ∀ x ∈ l, x.1 ≠ sid) :
    l.map (fun e => if e.1 = sid then (e.1, e.2.1 + n, e.2.2) else e) = l := by
  induction l with
  | nil => rfl
  | cons a l ih =>
    simp only [List.map_cons, if_neg (h a (by simp))]
    rw [ih (fun x hx => h x (by simp [hx]))]

/-- Helper: after an update, `find?` at the updated key returns the
bumped entry. -/
lemma find?_update_self (l : List (Nat × Nat × Nat)) (sid n : Nat)
    (e : Nat × Nat × Nat)
    (h : l.find? (fun x => x.1 = sid) = some e) :
    (l.map (fun x => if x.1 = sid then (x.1, x.2.1 + n, x.2.2) else x)).find?
        (fun x => x.1 = sid) = some (e.1, e.2.1 + n, e.2.2) := by
  induction l with
  | nil => simp at h
  | cons a l ih =>
    by_cases ha : a.1 = sid
    · rw [List.find?_cons_of_pos _ (by simp [ha])] at h
      cases h
      simp only [List.map_cons, if_pos ha]
      rw [List.find?_cons_of_pos _ (by simp [ha])]
    · rw [List.find?_cons_of_neg _ (by simp [ha])] at h
      simp only [List.map_cons, if_neg ha]
      rw [List.find?_cons_of_neg _ (by simp [ha])]
      exact ih h

/-- Helper: an update at key `sid` does not change `find?` at other
keys. -/
lemma find?_update_ne (l : List (Nat × Nat × Nat)) (sid sid2 n : Nat)
    (hne : sid2 ≠ sid) :
    (l.map (fun x => if x.1 = sid then (x.1, x.2.1 + n, x.2.2) else x)).find?
        (fun x => x.1 = sid2) = l.find? (fun x => x.1 = sid2) := by
  induction l with
  | nil => rfl
  | cons a l ih =>
    by_cases ha : a.1 = sid
    · have ha2 : ¬ a.1 = sid2 := by intro hc; exact hne (by omega)
      simp only [List.map_cons, if_pos ha]
      rw [List.find?_cons_of_neg _ (by simp only [decide_eq_true_eq]; exact ha2),
        List.find?_cons_of_neg _ (by simp only [decide_eq_true_eq]; exact ha2)]
      exact ih
    · simp only [List.map_cons, if_neg ha]
      by_cases ha2 : a.1 = sid2
      · rw [List.find?_cons_of_pos _ (by simp [ha2]),
          List.find?_cons_of_pos _ (by simp [ha2])]
      · rw [List.find?_cons_of_neg _ (by simp [ha2]),
          List.find?_cons_of_neg _ (by simp [ha2])]
        exact ih

/-- Helper: with unique keys, an update at a present key raises the sum
of the `downloaded` fields by exactly the added bytes. -/
lemma sum_update (l : List (Nat × Nat × Nat)) (sid n : Nat)
    (e : Nat × Nat × Nat)
    (hfind : l.find? (fun x => x.1 = sid) = some e)
    (hnd : (l.map (fun x => x.1)).Nodup) :
    ((l.map (fun x => if x.1 = sid then (x.1, x.2.1 + n, x.2.2) else x)).map
        (fun x => x.2.1)).sum =
      (l.map (fun x => x.2.1)).sum + n := by
  induction l with
  | nil => simp at hfind
  | cons a l ih =>
    simp only [List.map_cons, List.nodup_cons] at hnd
    by_cases ha : a.1 = sid
    · have hrest : l.map
          (fun x => if x.1 = sid then (x.1, x.2.1 + n, x.2.2) else x) = l := by
        refine map_update_of_not_mem l sid n (fun x hx hc => hnd.1 ?_)
        rw [ha, ← hc]
        exact List.mem_map_of_mem (fun y : Nat × Nat × Nat => y.1) hx
      simp only [List.map_cons, if_pos ha, hrest, List.sum_cons]
      omega
    · rw [List.find?_cons_of_neg _ (by simp [ha])] at hfind
      simp only [List.map_cons, if_neg ha, List.sum_cons]
      rw [ih hfind hnd.2]
      omega

/-- Claim C9, counterexample: `update` with a `segment_id` that is not
in the map (here segment `5` of a 1-segment tracker) increments
`total_downloaded` but no per-segment `downloaded`, so afterwards
`total_downloaded` (7) differs from the sum of the per-segment values
(0) and there is no segment field that was incremented. -/
theorem claim_C9_counterexample :
    ((SegmentedProgressTracker.new 1 10 10).update 5 7).total_downloaded = 7 ∧
    ((SegmentedProgressTracker.new 1 10 10).update 5 7).sumDownloaded = 0 ∧
    ((SegmentedProgressTracker.new 1 10 10).update 5 7).lookup 5 = none ∧
    (7 : Nat) ≠ 0 := by
  refine ⟨rfl, rfl, rfl, by decide⟩

/-- Claim C9 as amended: for a `segment_id` that is present in the
tracker map (as every id of a planned segment is), `update` increments
both that segment entry and `total_downloaded` by `bytes`, leaves every
other segment and `total_size` unchanged, and preserves the invariant
that `total_downloaded` equals the sum of the per-segment values; for
an absent id only `total_downloaded` grows. -/
theorem claim_C9_amended (t : SegmentedProgressTracker) (sid n d sz : Nat)
    (hl : t.lookup sid = some (d, sz))
    (hnd : (t.segments.map (fun e => e.1)).Nodup) :
    (t.update sid n).lookup sid = some (d + n, sz) ∧
    (∀ sid2, sid2 ≠ sid → (t.update sid n).lookup sid2 = t.lookup sid2) ∧
    (t.update sid n).total_downloaded = t.total_downloaded + n ∧
    (t.update sid n).total_size = t.total_size ∧
    (t.total_downloaded = t.sumDownloaded →
      (t.update sid n).total_downloaded = (t.update sid n).sumDownloaded) := by
  obtain ⟨e, hfind, he⟩ :
      ∃ e, t.segments.find? (fun x => x.1 = sid) = some e ∧ e.2 = (d, sz) := by
    unfold SegmentedProgressTracker.lookup at hl
    cases hf : t.segments.find? (fun x => x.1 = sid) with
    | none => rw [hf] at hl; simp at hl
    | some e => rw [hf] at hl; simp at hl; exact ⟨e, rfl, hl⟩
  refine ⟨?_, ?_, rfl, rfl, ?_⟩
  · unfold SegmentedProgressTracker.lookup SegmentedProgressTracker.update
    rw [find?_update_self t.segments sid n e hfind]
    simp [he]
  · intro sid2 hne
    unfold SegmentedProgressTracker.lookup SegmentedProgressTracker.update
    rw [find?_update_ne t.segments sid sid2 n hne]
  · intro hinv
    unfold SegmentedProgressTracker.sumDownloaded
      SegmentedProgressTracker.update
    simp only
    rw [sum_update t.segments sid n e hfind hnd]
    unfold SegmentedProgressTracker.sumDownloaded at hinv
    omega

/-- Witness for C9 at a 2-segment tracker, updating segment 1 by 3
bytes. -/
theorem claim_C9_witness :
    (SegmentedProgressTracker.new 2 5 10).lookup 1 = some (0, 5) ∧
    ((SegmentedProgressTracker.new 2 5 10).segments.map
      (fun e => e.1)).Nodup ∧
    (((SegmentedProgressTracker.new 2 5 10).update 1 3).lookup 1 =
        some (0 + 3, 5) ∧
      (∀ sid2, sid2 ≠ 1 →
        ((SegmentedProgressTracker.new 2 5 10).update 1 3).lookup sid2 =
          (SegmentedProgressTracker.new 2 5 10).lookup sid2) ∧
      ((SegmentedProgressTracker.new 2 5 10).update 1 3).total_downloaded =
        (SegmentedProgressTracker.new 2 5 10).total_downloaded + 3 ∧
      ((SegmentedProgressTracker.new 2 5 10).update 1 3).total_size =
        (SegmentedProgressTracker.new 2 5 10).total_size ∧
      ((SegmentedProgressTracker.new 2 5 10).total_downloaded =
          (SegmentedProgressTracker.new 2 5 10).sumDownloaded →
        ((SegmentedProgressTracker.new 2 5 10).update 1 3).total_downloaded =
          ((SegmentedProgressTracker.new 2 5 10).update 1 3).sumDownloaded)) :=
  ⟨rfl, by decide, claim_C9_amended (SegmentedProgressTracker.new 2 5 10)
    1 3 0 5 rfl (by decide)⟩

/-- Helper: after filtering out the key `id`, a lookup of `id` in the
task table finds nothing. -/
lemma lookupTask_filter (mm : DownloadManager) (id : String) :
    (DownloadManager.lookupTask
      { mm with tasks := mm.tasks.filter (fun e => e.1 ≠ id) } id) = none := by
  unfold DownloadManager.lookupTask
  rw [Option.map_eq_none', List.find?_eq_none]
  intro x hx
  have h2 := (List.mem_filter.mp hx).2
  simp only [ne_eq, decide_not, Bool.not_eq_eq_eq_not, Bool.not_true,
    decide_eq_false_iff_not] at h2
  simpa using h2

/-- Helper: after filtering out the key `id`, no row listed for the
table carries `id`. -/
lemma list_downloads_filter (mm : DownloadManager) (id : String) :
    ∀ e ∈ (DownloadManager.list_downloads
      { mm with tasks := mm.tasks.filter (fun x => x.1 ≠ id) }), e.1 ≠ id := by
  intro e he
  unfold DownloadManager.list_downloads at he
  simp only [List.mem_map, List.mem_filter] at he
  obtain ⟨x, ⟨_, hx⟩, rfl⟩ := he
  simpa using hx

/-- Claim C4: the controller `remove(id)` operation — modelled from the
spec, the method being absent from the sources — returns `true` for a
known id and deletes the record, so a lookup finds nothing and `list()`
no longer contains the id. -/
theorem claim_C4 (m : DownloadManager) (id : String)
    (hk : (m.lookupTask id).isSome = true) :
    (m.remove id).1 = true ∧
    (m.remove id).2.lookupTask id = none ∧
    ∀ e ∈ (m.remove id).2.list_downloads, e.1 ≠ id := by
  cases hfind : m.lookupTask id with
  | none => rw [hfind] at hk; simp at hk
  | some t =>
    simp only [DownloadManager.remove, hfind]
    exact ⟨trivial, lookupTask_filter _ id, list_downloads_filter _ id⟩

/-- Witness for C4 at a one-task table holding a `Downloading` task. -/
theorem claim_C4_witness :
    ((DownloadManager.mk
        [("tid", ⟨"tid", "u", "o", "mp", false, .Downloading,
          SegmentedProgressTracker.new 4 0 0⟩)]
        ⟨10, 2, 4, ""⟩).lookupTask "tid").isSome = true ∧
    (((DownloadManager.mk
        [("tid", ⟨"tid", "u", "o", "mp", false, .Downloading,
          SegmentedProgressTracker.new 4 0 0⟩)]
        ⟨10, 2, 4, ""⟩).remove "tid").1 = true ∧
     ((DownloadManager.mk
        [("tid", ⟨"tid", "u", "o", "mp", false, .Downloading,
          SegmentedProgressTracker.new 4 0 0⟩)]
        ⟨10, 2, 4, ""⟩).remove "tid").2.lookupTask "tid" = none ∧
     ∀ e ∈ ((DownloadManager.mk
        [("tid", ⟨"tid", "u", "o", "mp", false, .Downloading,
          SegmentedProgressTracker.new 4 0 0⟩)]
        ⟨10, 2, 4, ""⟩).remove "tid").2.list_downloads, e.1 ≠ "tid") :=
  ⟨rfl, claim_C4 _ "tid" rfl⟩

/-- Helper: `List.getD` returns an element of the list or the
default. -/
lemma hexChar_mem (n : Nat) : hexChar n ∈ hexDigits := by
  unfold hexChar
  rw [List.getD_eq_getElem?_getD]
  cases hx : hexDigits[n]? with
  | none => simp [hexDigits]
  | some c =>
    simp only [Option.getD_some]
    exact List.getElem?_mem hx

/-- Helper: every character produced by `hexEncode` is one of
`0-9a-f`. -/
lemma hexEncode_chars (bs : List Nat) :
    ∀ c ∈ (hexEncode bs).data, c ∈ hexDigits := by
  intro c hc
  unfold hexEncode at hc
  simp only [String.data] at hc
  simp only [List.mem_flatten, List.mem_map] at hc
  obtain ⟨l, ⟨b, _, rfl⟩, hcl⟩ := hc
  simp only [List.mem_cons, List.not_mem_nil, or_false] at hcl
  rcases hcl with rfl | rfl
  · exact hexChar_mem _
  · exact hexChar_mem _

/-- Claim C8: the task id returned by `add_download` is `hash_url` of
the URL — the lowercase hexadecimal SHA-256 of its bytes — so `add`
followed by `cancel` followed by `add` of the same URL yields the very
same id; every character of the id is a lowercase hex digit. -/
theorem claim_C8 (m : DownloadManager) (url out1 out2 : String) :
    (m.add_download url out1).1 = hash_url url ∧
    ((((m.add_download url out1).2.cancel
        (m.add_download url out1).1).2).add_download url out2).1 =
      (m.add_download url out1).1 ∧
    ∀ c ∈ (m.add_download url out1).1.data, c ∈ hexDigits := by
  refine ⟨rfl, rfl, ?_⟩
  intro c hc
  exact hexEncode_chars (sha256 (utf8Encode url)) c hc

/-- Helper: wrapping `u64` subtraction of `1` is plain subtraction when
the minuend is a positive `u64` value. -/
lemma wsub64_one (a : Nat) (h1 : 1 ≤ a) (h2 : a ≤ u64Mod) :
    wsub64 a 1 = a - 1 := by
  unfold wsub64 u64Mod at *
  rw [Nat.mod_eq_of_lt (show (1 : Nat) < 18446744073709551616 by omega)]
  rw [show a + (18446744073709551616 - 1) =
    (a - 1) + 18446744073709551616 by omega]
  rw [Nat.add_mod_right]
  exact Nat.mod_eq_of_lt (by omega)

/-- Helper: for `N ≤ T < 2^64`, the end offset of a non-last segment is
the unwrapped `(i + 1) * chunk - 1`. -/
lemma segEnd_nonlast (T N i : Nat) (hN : 1 ≤ N) (hTN : N ≤ T)
    (hT : T < u64Mod) (hi : i < N - 1) :
    segEnd T N i = (i + 1) * (T / N) - 1 := by
  unfold segEnd
  rw [if_neg (by omega)]
  apply wsub64_one
  · have hc : 1 ≤ T / N := (Nat.one_le_div_iff (by omega)).mpr hTN
    have := Nat.mul_pos (show 0 < i + 1 by omega) (show 0 < T / N by omega)
    omega
  · have h2 : (i + 1) * (T / N) ≤ N * (T / N) :=
      mul_le_mul_right' (by omega) _
    have h3 : N * (T / N) ≤ T := by
      rw [Nat.mul_comm]; exact Nat.div_mul_le_self T N
    omega

/-- Helper: the end offset of the last segment is `total_size - 1`. -/
lemma segEnd_last (T N : Nat) (hT1 : 1 ≤ T) (hT : T < u64Mod) :
    segEnd T N (N - 1) = T - 1 := by
  unfold segEnd
  rw [if_pos rfl]
  exact wsub64_one T hT1 (by omega)

/-- Claim C1, counterexample: at `total_size = 1`, `num_threads = 2`
(a planned task with `T > 0` and `N ≥ 1`), the end-offset subtraction
of segment 0 wraps to `2^64 - 1`: segment 0 becomes
`[0, 18446744073709551615]` and segment 1 `[0, 0]`, so the ranges
overlap and do not cover exactly `[0, T - 1]`. -/
theorem claim_C1_counterexample :
    segEnd 1 2 0 = 18446744073709551615 ∧
    segStart 1 2 1 = 0 ∧
    segEnd 1 2 1 = 0 ∧
    ¬ (segEnd 1 2 0 < segStart 1 2 1) ∧
    ¬ (∀ b, b < 1 ↔ ∃ i, i < 2 ∧ segStart 1 2 i ≤ b ∧ b ≤ segEnd 1 2 i) := by
  refine ⟨by decide, by decide, by decide, by decide, ?_⟩
  intro hall
  have h5 := (hall 5).mpr ⟨0, by decide, by decide, by decide⟩
  omega

/-- Claim C1 as amended: for `num_threads ≤ total_size < 2^64`, the
plan partitions `[0, T - 1]` exactly as specified — segment `i` is
`[i * chunk, (i + 1) * chunk - 1]` for `i < N - 1`, the last segment
ends at `T - 1`, and the ranges are contiguous, inclusive,
non-overlapping and cover exactly `[0, T - 1]`.  (For
`0 < total_size < num_threads` the end-offset arithmetic underflows;
see C10.) -/
theorem claim_C1_amended (T N : Nat) (p : String) (hN : 1 ≤ N)
    (hTN : N ≤ T) (hT : T < u64Mod) :
    (∀ i, i < N → (planSegments T N p).get? i = some
      { segment_id := i, start := segStart T N i, stop := segEnd T N i,
        downloaded := 0, part_path := p ++ ".part" ++ toString i }) ∧
    segStart T N 0 = 0 ∧
    (∀ i, i + 1 < N → segEnd T N i + 1 = segStart T N (i + 1)) ∧
    (∀ i, i < N → segStart T N i ≤ segEnd T N i) ∧
    segEnd T N (N - 1) = T - 1 ∧
    (∀ i j, i < j → j < N → segEnd T N i < segStart T N j) ∧
    (∀ b, b < T ↔ ∃ i, i < N ∧ segStart T N i ≤ b ∧ b ≤ segEnd T N i) := by
  have hchunk : 1 ≤ T / N := (Nat.one_le_div_iff (by omega)).mpr hTN
  have hNchunk : N * (T / N) ≤ T := by
    rw [Nat.mul_comm]; exact Nat.div_mul_le_self T N
  refine ⟨?_, ?_, ?_, ?_, ?_, ?_, ?_⟩
  · intro i hi
    unfold planSegments
    rw [List.get?_map, List.get?_range hi]
    rfl
  · unfold segStart
    omega
  · intro i hi
    rw [segEnd_nonlast T N i hN hTN hT (by omega)]
    unfold segStart
    have h1 := Nat.mul_pos (show 0 < i + 1 by omega)
      (show 0 < T / N by omega)
    omega
  · intro i hi
    by_cases hlast : i = N - 1
    · subst hlast
      rw [segEnd_last T N (by omega) hT]
      unfold segStart
      have h2 : ((N - 1) + 1) * (T / N) = (N - 1) * (T / N) + T / N :=
        Nat.succ_mul _ _
      have h3 : (N - 1) + 1 = N := by omega
      rw [h3] at h2
      omega
    · rw [segEnd_nonlast T N i hN hTN hT (by omega)]
      unfold segStart
      have h1 : (i + 1) * (T / N) = i * (T / N) + T / N := Nat.succ_mul _ _
      omega
  · exact segEnd_last T N (by omega) hT
  · intro i j hij hj
    rw [segEnd_nonlast T N i hN hTN hT (by omega)]
    unfold segStart
    have h1 : (i + 1) * (T / N) ≤ j * (T / N) :=
      mul_le_mul_right' (by omega) _
    have h2 := Nat.mul_pos (show 0 < i + 1 by omega)
      (show 0 < T / N by omega)
    omega
  · intro b
    constructor
    · intro hb
      by_cases hbig : b < (N - 1) * (T / N)
      · have hidx : b / (T / N) < N - 1 :=
          (Nat.div_lt_iff_lt_mul (show 0 < T / N by omega)).mpr hbig
        refine ⟨b / (T / N), by omega, ?_, ?_⟩
        · unfold segStart
          exact Nat.div_mul_le_self b (T / N)
        · rw [segEnd_nonlast T N (b / (T / N)) hN hTN hT hidx]
          have hdm := Nat.div_add_mod b (T / N)
          have hmod : b % (T / N) < T / N := Nat.mod_lt _ (by omega)
          have hmul : (b / (T / N) + 1) * (T / N) =
              (b / (T / N)) * (T / N) + T / N := Nat.succ_mul _ _
          rw [Nat.mul_comm (T / N) (b / (T / N))] at hdm
          omega
      · refine ⟨N - 1, by omega, ?_, ?_⟩
        · unfold segStart
          omega
        · rw [segEnd_last T N (by omega) hT]
          omega
    · rintro ⟨i, hi, h1, h2⟩
      by_cases hlast : i = N - 1
      · subst hlast
        rw [segEnd_last T N (by omega) hT] at h2
        omega
      · rw [segEnd_nonlast T N i hN hTN hT (by omega)] at h2
        have h3 : (i + 1) * (T / N) ≤ N * (T / N) :=
          mul_le_mul_right' (by omega) _
        have h4 := Nat.mul_pos (show 0 < i + 1 by omega)
          (show 0 < T / N by omega)
        omega

/-- Witness for C1 at the `total_size = 100`, `num_threads = 3`
example of the spec (segments `[0,32]`, `[33,65]`, `[66,99]`). -/
theorem claim_C1_witness :
    (1 ≤ 3 ∧ 3 ≤ 100 ∧ 100 < u64Mod) ∧
    ((∀ i, i < 3 → (planSegments 100 3 "test_download.bin").get? i = some
      { segment_id := i, start := segStart 100 3 i, stop := segEnd 100 3 i,
        downloaded := 0,
        part_path := "test_download.bin" ++ ".part" ++ toString i }) ∧
    segStart 100 3 0 = 0 ∧
    (∀ i, i + 1 < 3 → segEnd 100 3 i + 1 = segStart 100 3 (i + 1)) ∧
    (∀ i, i < 3 → segStart 100 3 i ≤ segEnd 100 3 i) ∧
    segEnd 100 3 (3 - 1) = 100 - 1 ∧
    (∀ i j, i < j → j < 3 → segEnd 100 3 i < segStart 100 3 j) ∧
    (∀ b, b < 100 ↔
      ∃ i, i < 3 ∧ segStart 100 3 i ≤ b ∧ b ≤ segEnd 100 3 i)) :=
  ⟨⟨by decide, by decide, by decide⟩,
   claim_C1_amended 100 3 "test_download.bin" (by decide) (by decide)
     (by decide)⟩

/-- Sanity check of the S3 example of the spec: `total_size = 100`,
`num_threads = 3` plans `[0,32]`, `[33,65]`, `[66,99]`. -/
lemma planSegments_example :
    (planSegments 100 3 "test_download.bin").map
      (fun s => (s.start, s.stop)) = [(0, 32), (33, 65), (66, 99)] := by
  decide

end ODM
